import Mathlib

/-!
Shallow embedding of the persistence and migration layer of the budgeting
PWA (the IndexedDB wrapper in the repository): record collections for
transactions, budgets and settings, the one-time v2 migration, and the
query layer over transactions.

JS values stored in the `settings` collection are modelled by the `Value`
type; JS truthiness is the `truthy` function.  Auto-increment primary keys
are modelled by explicit `nextTxnId` / `nextBudgetId` counters (IndexedDB
auto-increment keys start at 1 and are never reused).  `Date.now()` is an
explicit `now : Int` parameter.  Collections are lists kept in primary-key
order, which is the order an IndexedDB cursor visits records.
-/

namespace BudgetApp

/-- A JS value as persisted in the `settings` object store. -/
inductive Value where
  | vNull : Value
  | vBool : Bool → Value
  | vNum : Int → Value
  | vStr : String → Value
deriving DecidableEq, Repr

/-- JS truthiness of a stored value (`if (x)`, `x || d`). -/
def truthy : Value → Bool
  | .vNull => false
  | .vBool b => b
  | .vNum n => !(n == 0)
  | .vStr s => !(s == "")

/-- A record of the `transactions` object store.  `budgetId` is `none` for a
legacy record written before the v2 schema; JS reads it as `undefined`,
which is falsy, as is a stored `0`. -/
structure Txn where
  id : Nat
  amount : Int
  category : String
  note : String
  budgetId : Option Nat
  timestamp : Int
deriving DecidableEq, Repr

/-- The JS test `!record.budgetId` used by the migration backfill:
true when the field is absent or `0`. -/
def budgetIdMissing : Option Nat → Bool
  | none => true
  | some n => n == 0

/-- A record of the `budgets` object store. -/
structure Budget where
  id : Nat
  name : String
  target : Value
  created : Int
deriving DecidableEq, Repr

/-- The persisted database state: the three object stores plus the
auto-increment key generators of `transactions` and `budgets`. -/
structure Store where
  transactions : List Txn
  budgets : List Budget
  settings : List (String × Value)
  nextTxnId : Nat
  nextBudgetId : Nat
deriving DecidableEq, Repr

/-- Key lookup in the `settings` store (primary key `key`). -/
def lookupSetting : List (String × Value) → String → Option Value
  | [], _ => none
  | (k, v) :: rest, key => if k = key then some v else lookupSetting rest key

/-- `store.put({key, value})` on the `settings` store: replace the record
with this key if present, else insert it. -/
def putSetting (l : List (String × Value)) (key : String) (v : Value) :
    List (String × Value) :=
  match l with
  | [] => [(key, v)]
  | (k, w) :: rest =>
      if k = key then (key, v) :: rest else (k, w) :: putSetting rest key v

/-- `getSettingInternal(db, key)`: resolves with `request.result ?
request.result.value : null` — the stored value when the record exists
(even a falsy one), and `null` when it does not. -/
def getSettingInternal (s : Store) (key : String) : Value :=
  match lookupSetting s.settings key with
  | some v => v
  | none => Value.vNull

/-- `setSettingInternal(db, key, value)`. -/
def setSettingInternal (s : Store) (key : String) (v : Value) : Store :=
  { s with settings := putSetting s.settings key v }

/-- `createBudgetInternal(db, name, target)`: `store.add` a record
`{name, target, created: Date.now()}`; IndexedDB assigns the next
auto-increment key as `id` and resolves with that key. -/
def createBudgetInternal (s : Store) (name : String) (target : Value)
    (now : Int) : Nat × Store :=
  (s.nextBudgetId,
    { s with
      budgets := s.budgets ++ [⟨s.nextBudgetId, name, target, now⟩],
      nextBudgetId := s.nextBudgetId + 1 })

/-- `getAllBudgetsInternal(db)`. -/
def getAllBudgetsInternal (s : Store) : List Budget :=
  s.budgets

/-- `migrateTransactionsToBudget(db, budgetId)`: cursor over every
transaction; records whose `budgetId` is falsy get the given id written
back, the others are left untouched. -/
def migrateTransactionsToBudget (s : Store) (budgetId : Nat) : Store :=
  { s with
    transactions := s.transactions.map (fun t =>
      if budgetIdMissing t.budgetId then { t with budgetId := some budgetId }
      else t) }

/-- `runMigrationIfNeeded(db)`: the one-time v2 migration.  Returns early
when the completion flag is truthy; when budgets already exist it only sets
the flag; otherwise it creates the default budget from the legacy
`monthlyTarget` (`|| 1000`), backfills transactions, sets
`currentBudgetId`, and last sets `migrationV2Done`. -/
def runMigrationIfNeeded (s : Store) (now : Int) : Store :=
  if truthy (getSettingInternal s "migrationV2Done") then s
  else if (getAllBudgetsInternal s).length > 0 then
    setSettingInternal s "migrationV2Done" (.vBool true)
  else
    let oldRead := getSettingInternal s "monthlyTarget"
    let oldTarget := if truthy oldRead then oldRead else .vNum 1000
    let created := createBudgetInternal s "Personal Budget" oldTarget now
    let s1 := migrateTransactionsToBudget created.2 created.1
    let s2 := setSettingInternal s1 "currentBudgetId"
      (.vNum (Int.ofNat created.1))
    setSettingInternal s2 "migrationV2Done" (.vBool true)

/-! ### Basic lemmas about the settings store -/

theorem lookupSetting_put_self (l : List (String × Value)) (k : String)
    (v : Value) : lookupSetting (putSetting l k v) k = some v := by
  induction l with
  | nil => simp [putSetting, lookupSetting]
  | cons p rest ih =>
      obtain ⟨k0, w⟩ := p
      by_cases h : k0 = k
      · simp [putSetting, h, lookupSetting]
      · simpa [putSetting, h, lookupSetting] using ih

theorem lookupSetting_put_ne (l : List (String × Value)) (k k' : String)
    (v : Value) (h : k' ≠ k) :
    lookupSetting (putSetting l k v) k' = lookupSetting l k' := by
  induction l with
  | nil => simp [putSetting, lookupSetting, Ne.symm h]
  | cons p rest ih =>
      obtain ⟨k0, w⟩ := p
      by_cases h0 : k0 = k
      · subst h0
        simp [putSetting, lookupSetting, Ne.symm h]
      · by_cases h1 : k0 = k'
        · subst h1
          simp [putSetting, h0, lookupSetting]
        · simpa [putSetting, h0, h1, lookupSetting] using ih

theorem getSetting_set_self (s : Store) (k : String) (v : Value) :
    getSettingInternal (setSettingInternal s k v) k = v := by
  simp [getSettingInternal, setSettingInternal, lookupSetting_put_self]

theorem getSetting_set_ne (s : Store) (k k' : String) (v : Value)
    (h : k' ≠ k) :
    getSettingInternal (setSettingInternal s k v) k' =
      getSettingInternal s k' := by
  simp [getSettingInternal, setSettingInternal, lookupSetting_put_ne _ _ _ _ h]

theorem setSetting_transactions (s : Store) (k : String) (v : Value) :
    (setSettingInternal s k v).transactions = s.transactions := rfl

theorem setSetting_budgets (s : Store) (k : String) (v : Value) :
    (setSettingInternal s k v).budgets = s.budgets := rfl

/-! ### Behaviour of the migration -/

theorem migration_noop_of_done (s : Store) (now : Int)
    (h : truthy (getSettingInternal s "migrationV2Done") = true) :
    runMigrationIfNeeded s now = s := by
  simp [runMigrationIfNeeded, h]

theorem migration_sets_flag (s : Store) (now : Int) :
    truthy (getSettingInternal (runMigrationIfNeeded s now) "migrationV2Done")
      = true := by
  by_cases hflag : truthy (getSettingInternal s "migrationV2Done") = true
  · rw [migration_noop_of_done s now hflag]; exact hflag
  · rw [runMigrationIfNeeded]
    simp only [hflag, Bool.false_eq_true, if_false]
    by_cases hb : (getAllBudgetsInternal s).length > 0
    · simp [hb, getSetting_set_self, truthy]
    · simp [hb, getSetting_set_self, truthy]

/-- C1: on a store whose migrationV2Done setting is unset and that has no
budgets, the migration reads the legacy monthlyTarget (defaulting to 1000
when absent or falsy), creates exactly one budget named Personal Budget
with that target, assigns its id to every transaction lacking a budgetId,
sets currentBudgetId to that id, and sets migrationV2Done to true. -/
theorem migration_legacy_full_run (s : Store) (now : Int)
    (hflag : getSettingInternal s "migrationV2Done" = Value.vNull)
    (hbud : s.budgets = []) :
    (runMigrationIfNeeded s now).budgets =
      [⟨s.nextBudgetId, "Personal Budget",
        (if truthy (getSettingInternal s "monthlyTarget") then
          getSettingInternal s "monthlyTarget" else Value.vNum 1000), now⟩] ∧
    (runMigrationIfNeeded s now).transactions =
      s.transactions.map (fun t =>
        if budgetIdMissing t.budgetId then
          { t with budgetId := some s.nextBudgetId } else t) ∧
    getSettingInternal (runMigrationIfNeeded s now) "currentBudgetId" =
      Value.vNum (Int.ofNat s.nextBudgetId) ∧
    getSettingInternal (runMigrationIfNeeded s now) "migrationV2Done" =
      Value.vBool true := by
  have hflag2 : truthy (getSettingInternal s "migrationV2Done") = false := by
    rw [hflag]; rfl
  have hlen : ¬ (getAllBudgetsInternal s).length > 0 := by
    simp [getAllBudgetsInternal, hbud]
  rw [runMigrationIfNeeded]
  simp only [hflag2, Bool.false_eq_true, if_false, hlen]
  refine ⟨?_, ?_, ?_, ?_⟩
  · simp [setSettingInternal, migrateTransactionsToBudget,
      createBudgetInternal, hbud]
  · simp [setSettingInternal, migrateTransactionsToBudget,
      createBudgetInternal]
  · rw [getSetting_set_ne _ _ _ _ (by decide), getSetting_set_self]
    rfl
  · rw [getSetting_set_self]

/-- Concrete legacy store: monthlyTarget 1500, three transactions that all
lack a budgetId, no budgets, migration flag unset. -/
def legacyStore : Store :=
  { transactions :=
      [⟨1, 20, "food", "", none, 100⟩,
       ⟨2, 30, "transport", "", none, 200⟩,
       ⟨3, 40, "misc", "", none, 300⟩],
    budgets := [],
    settings := [("monthlyTarget", Value.vNum 1500)],
    nextTxnId := 4,
    nextBudgetId := 1 }

/-- Witness for C1: the legacy scenario with monthlyTarget 1500 and three
transactions lacking a budgetId ends with one budget of target 1500 and
all three transactions carrying its id. -/
theorem migration_legacy_full_run_witness :
    getSettingInternal legacyStore "migrationV2Done" = Value.vNull ∧
    legacyStore.budgets = [] ∧
    (runMigrationIfNeeded legacyStore 777).budgets =
      [⟨1, "Personal Budget", Value.vNum 1500, 777⟩] ∧
    (runMigrationIfNeeded legacyStore 777).transactions =
      [⟨1, 20, "food", "", some 1, 100⟩,
       ⟨2, 30, "transport", "", some 1, 200⟩,
       ⟨3, 40, "misc", "", some 1, 300⟩] ∧
    getSettingInternal (runMigrationIfNeeded legacyStore 777)
      "currentBudgetId" = Value.vNum 1 ∧
    getSettingInternal (runMigrationIfNeeded legacyStore 777)
      "migrationV2Done" = Value.vBool true := by
  have h := migration_legacy_full_run legacyStore 777 (by decide) rfl
  refine ⟨by decide, rfl, ?_, ?_, h.2.2.1, h.2.2.2⟩
  · rw [h.1]; decide
  · rw [h.2.1]; decide

/-- C2: the migration is idempotent — a second run is a no-op (so no
duplicate budget is created and no budgetId changes on the second run) —
and on a store whose migrationV2Done setting is truthy a run performs zero
writes. -/
theorem migration_idempotent (s : Store) (now now2 : Int) :
    runMigrationIfNeeded (runMigrationIfNeeded s now) now2 =
      runMigrationIfNeeded s now ∧
    (truthy (getSettingInternal s "migrationV2Done") = true →
      runMigrationIfNeeded s now = s) := by
  refine ⟨?_, fun h => migration_noop_of_done s now h⟩
  exact migration_noop_of_done _ _ (migration_sets_flag s now)

/-- A store on which the migration already completed. -/
def migratedStore : Store :=
  { transactions := [⟨1, 20, "food", "", some 1, 100⟩],
    budgets := [⟨1, "Personal Budget", Value.vNum 1000, 0⟩],
    settings := [("currentBudgetId", Value.vNum 1),
                 ("migrationV2Done", Value.vBool true)],
    nextTxnId := 2,
    nextBudgetId := 2 }

/-- Witness for C2: a second run after migrating the legacy store changes
nothing, and a run on an already migrated store performs zero writes. -/
theorem migration_idempotent_witness :
    runMigrationIfNeeded (runMigrationIfNeeded migratedStore 5) 6 =
      runMigrationIfNeeded migratedStore 5 ∧
    truthy (getSettingInternal migratedStore "migrationV2Done") = true ∧
    runMigrationIfNeeded migratedStore 5 = migratedStore := by
  have h := migration_idempotent migratedStore 5 6
  exact ⟨h.1, by decide, h.2 (by decide)⟩

/-! ### The migration as an ordered sequence of writes

`runMigrationIfNeeded` performs its writes one IndexedDB request at a
time: the budget insertion, one cursor update per backfilled transaction,
and two settings puts.  `migrationWrites` lists those writes in program
order and `applyWrites` replays a prefix of them, modelling an execution
that aborts partway (any failed read aborts before the first write, any
failed write aborts before the writes after it). -/

/-- A single write request issued by the migration. -/
inductive WriteOp where
  | addBudget : String → Value → WriteOp
  | assignBudget : Nat → Nat → WriteOp
  | putSettingOp : String → Value → WriteOp
deriving DecidableEq, Repr

/-- One cursor update of the backfill: give the transaction with this id
the given budgetId. -/
def assignTxn (l : List Txn) (txnId budgetId : Nat) : List Txn :=
  l.map (fun t =>
    if t.id = txnId then { t with budgetId := some budgetId } else t)

/-- Apply one write to the store. -/
def applyWrite (s : Store) (now : Int) : WriteOp → Store
  | .addBudget name target => (createBudgetInternal s name target now).2
  | .assignBudget txnId budgetId =>
      { s with transactions := assignTxn s.transactions txnId budgetId }
  | .putSettingOp key v => setSettingInternal s key v

/-- Apply a sequence of writes in order. -/
def applyWrites : Store → Int → List WriteOp → Store
  | s, _, [] => s
  | s, now, op :: rest => applyWrites (applyWrite s now op) now rest

/-- The writes `runMigrationIfNeeded` issues on a given starting store, in
program order. -/
def migrationWrites (s : Store) : List WriteOp :=
  if truthy (getSettingInternal s "migrationV2Done") then []
  else if (getAllBudgetsInternal s).length > 0 then
    [.putSettingOp "migrationV2Done" (.vBool true)]
  else
    .addBudget "Personal Budget"
        (if truthy (getSettingInternal s "monthlyTarget") then
          getSettingInternal s "monthlyTarget" else .vNum 1000) ::
      ((s.transactions.filter (fun u => budgetIdMissing u.budgetId)).map
          (fun t => .assignBudget t.id s.nextBudgetId) ++
        [.putSettingOp "currentBudgetId" (.vNum (Int.ofNat s.nextBudgetId)),
         .putSettingOp "migrationV2Done" (.vBool true)])

theorem applyWrites_append (s : Store) (now : Int) (l1 l2 : List WriteOp) :
    applyWrites s now (l1 ++ l2) = applyWrites (applyWrites s now l1) now l2 := by
  induction l1 generalizing s with
  | nil => rfl
  | cons op rest ih => simp [applyWrites, ih]

theorem foldl_assignTxn_eq_map (ids : List Nat) (l : List Txn) (bid : Nat) :
    ids.foldl (fun acc i => assignTxn acc i bid) l =
      l.map (fun t =>
        if t.id ∈ ids then { t with budgetId := some bid } else t) := by
  induction ids generalizing l with
  | nil => simp
  | cons i ids ih =>
      rw [List.foldl_cons, ih, assignTxn, List.map_map]
      refine List.map_congr_left ?_
      intro t _
      by_cases h1 : t.id = i
      · by_cases h2 : t.id ∈ ids <;> simp [Function.comp, h1, h2]
      · by_cases h2 : t.id ∈ ids <;> simp [Function.comp, h1, h2]

theorem applyWrites_assignOps (s : Store) (now : Int) (ids : List Nat)
    (bid : Nat) :
    applyWrites s now (ids.map (fun i => WriteOp.assignBudget i bid)) =
      { s with transactions :=
          ids.foldl (fun acc i => assignTxn acc i bid) s.transactions } := by
  induction ids generalizing s with
  | nil => rfl
  | cons i ids ih =>
      rw [List.map_cons, applyWrites, List.foldl_cons]
      exact ih { s with transactions := assignTxn s.transactions i bid }

theorem mem_missing_ids_iff (l : List Txn) (t : Txn)
    (hnd : (l.map Txn.id).Nodup) (ht : t ∈ l) :
    (t.id ∈ (l.filter (fun u => budgetIdMissing u.budgetId)).map Txn.id) ↔
      budgetIdMissing t.budgetId = true := by
  constructor
  · intro h
    simp only [List.mem_map, List.mem_filter] at h
    obtain ⟨u, ⟨hu, hum⟩, huid⟩ := h
    have heq := List.inj_on_of_nodup_map hnd hu ht huid
    rwa [← heq]
  · intro h
    exact List.mem_map_of_mem Txn.id (List.mem_filter.mpr ⟨ht, h⟩)

theorem migration_eq_applyWrites (s : Store) (now : Int)
    (hnd : (s.transactions.map Txn.id).Nodup) :
    runMigrationIfNeeded s now = applyWrites s now (migrationWrites s) := by
  by_cases hflag : truthy (getSettingInternal s "migrationV2Done") = true
  · rw [migration_noop_of_done s now hflag, migrationWrites]
    simp [hflag, applyWrites]
  · have hflag2 : truthy (getSettingInternal s "migrationV2Done") = false :=
      by simpa using hflag
    rw [runMigrationIfNeeded, migrationWrites]
    simp only [hflag2, Bool.false_eq_true, if_false]
    by_cases hb : (getAllBudgetsInternal s).length > 0
    · simp only [hb, if_true]
      rfl
    · simp only [hb, if_false]
      rw [applyWrites, applyWrites_append]
      have hmap : ((s.transactions.filter
            (fun u => budgetIdMissing u.budgetId)).map
            (fun t => WriteOp.assignBudget t.id s.nextBudgetId)) =
          (((s.transactions.filter
            (fun u => budgetIdMissing u.budgetId)).map Txn.id).map
            (fun i => WriteOp.assignBudget i s.nextBudgetId)) := by
        rw [List.map_map]
        rfl
      rw [hmap, applyWrites_assignOps, foldl_assignTxn_eq_map]
      simp only [applyWrite, createBudgetInternal]
      have htx : (s.transactions.map (fun t =>
          if t.id ∈ ((s.transactions.filter
            (fun u => budgetIdMissing u.budgetId)).map Txn.id) then
            { t with budgetId := some s.nextBudgetId } else t)) =
          (s.transactions.map (fun t =>
            if budgetIdMissing t.budgetId then
              { t with budgetId := some s.nextBudgetId } else t)) := by
        refine List.map_congr_left ?_
        intro t ht
        by_cases hm : budgetIdMissing t.budgetId = true
        · rw [if_pos ((mem_missing_ids_iff s.transactions t hnd ht).mpr hm),
            if_pos hm]
        · rw [if_neg (fun hmem =>
            hm ((mem_missing_ids_iff s.transactions t hnd ht).mp hmem)),
            if_neg (by simpa using hm)]
      rw [htx]
      rfl

/-- True exactly for the write that sets the migrationV2Done setting. -/
def flagWrite : WriteOp → Bool
  | .putSettingOp k _ => k == "migrationV2Done"
  | _ => false

theorem applyWrite_preserves_flag (s : Store) (now : Int) (op : WriteOp)
    (h : flagWrite op = false) :
    getSettingInternal (applyWrite s now op) "migrationV2Done" =
      getSettingInternal s "migrationV2Done" := by
  cases op with
  | addBudget name target => rfl
  | assignBudget a b => rfl
  | putSettingOp k v =>
      have hk : k ≠ "migrationV2Done" := by simpa [flagWrite] using h
      exact getSetting_set_ne s k "migrationV2Done" v (Ne.symm hk)

theorem applyWrites_preserves_flag (s : Store) (now : Int)
    (ops : List WriteOp) (h : ∀ op ∈ ops, flagWrite op = false) :
    getSettingInternal (applyWrites s now ops) "migrationV2Done" =
      getSettingInternal s "migrationV2Done" := by
  induction ops generalizing s with
  | nil => rfl
  | cons op rest ih =>
      rw [applyWrites, ih _ (fun o ho => h o (List.mem_cons_of_mem op ho)),
        applyWrite_preserves_flag s now op (h op (List.mem_cons_self op rest))]

theorem migrationWrites_dropLast_no_flag (s : Store) :
    ∀ op ∈ (migrationWrites s).dropLast, flagWrite op = false := by
  rw [migrationWrites]
  by_cases hflag : truthy (getSettingInternal s "migrationV2Done") = true
  · simp [hflag]
  · have hflag2 : truthy (getSettingInternal s "migrationV2Done") = false :=
      by simpa using hflag
    simp only [hflag2, Bool.false_eq_true, if_false]
    by_cases hb : (getAllBudgetsInternal s).length > 0
    · simp [hb]
    · simp only [hb, if_false]
      intro op hop
      have hsplit : (WriteOp.addBudget "Personal Budget"
            (if truthy (getSettingInternal s "monthlyTarget") = true then
              getSettingInternal s "monthlyTarget" else Value.vNum 1000) ::
          ((s.transactions.filter (fun u => budgetIdMissing u.budgetId)).map
              (fun t => WriteOp.assignBudget t.id s.nextBudgetId) ++
            [WriteOp.putSettingOp "currentBudgetId"
              (Value.vNum (Int.ofNat s.nextBudgetId)),
             WriteOp.putSettingOp "migrationV2Done" (Value.vBool true)])) =
          (WriteOp.addBudget "Personal Budget"
            (if truthy (getSettingInternal s "monthlyTarget") = true then
              getSettingInternal s "monthlyTarget" else Value.vNum 1000) ::
          ((s.transactions.filter (fun u => budgetIdMissing u.budgetId)).map
              (fun t => WriteOp.assignBudget t.id s.nextBudgetId) ++
            [WriteOp.putSettingOp "currentBudgetId"
              (Value.vNum (Int.ofNat s.nextBudgetId))])) ++
          [WriteOp.putSettingOp "migrationV2Done" (Value.vBool true)] := by
        simp
      rw [hsplit, List.dropLast_concat] at hop
      rcases List.mem_cons.mp hop with h1 | h2
      · rw [h1]; rfl
      · rcases List.mem_append.mp h2 with h3 | h4
        · obtain ⟨u, _, hu⟩ := List.mem_map.mp h3
          rw [← hu]; rfl
        · rw [List.mem_singleton.mp h4]; simp [flagWrite]

theorem migrationWrites_getLast (s : Store) (h : migrationWrites s ≠ []) :
    (migrationWrites s).getLast? =
      some (WriteOp.putSettingOp "migrationV2Done" (Value.vBool true)) := by
  rw [migrationWrites] at h ⊢
  by_cases hflag : truthy (getSettingInternal s "migrationV2Done") = true
  · simp [hflag] at h
  · have hflag2 : truthy (getSettingInternal s "migrationV2Done") = false :=
      by simpa using hflag
    simp only [hflag2, Bool.false_eq_true, if_false] at h ⊢
    by_cases hb : (getAllBudgetsInternal s).length > 0
    · simp [hb]
    · simp only [hb, if_false]
      have hsplit : (WriteOp.addBudget "Personal Budget"
            (if truthy (getSettingInternal s "monthlyTarget") = true then
              getSettingInternal s "monthlyTarget" else Value.vNum 1000) ::
          ((s.transactions.filter (fun u => budgetIdMissing u.budgetId)).map
              (fun t => WriteOp.assignBudget t.id s.nextBudgetId) ++
            [WriteOp.putSettingOp "currentBudgetId"
              (Value.vNum (Int.ofNat s.nextBudgetId)),
             WriteOp.putSettingOp "migrationV2Done" (Value.vBool true)])) =
          (WriteOp.addBudget "Personal Budget"
            (if truthy (getSettingInternal s "monthlyTarget") = true then
              getSettingInternal s "monthlyTarget" else Value.vNum 1000) ::
          ((s.transactions.filter (fun u => budgetIdMissing u.budgetId)).map
              (fun t => WriteOp.assignBudget t.id s.nextBudgetId) ++
            [WriteOp.putSettingOp "currentBudgetId"
              (Value.vNum (Int.ofNat s.nextBudgetId))])) ++
          [WriteOp.putSettingOp "migrationV2Done" (Value.vBool true)] := by
        simp
      rw [hsplit, List.getLast?_concat]

theorem mem_take_of_lt_length {α : Type} (l : List α) (k : Nat)
    (hk : k < l.length) : ∀ a ∈ l.take k, a ∈ l.dropLast := by
  intro a ha
  have h1 : l.take k = (l.dropLast).take k := by
    rw [List.dropLast_eq_take, List.take_take]
    congr 1
    omega
  rw [h1] at ha
  exact List.take_subset _ _ ha

/-- C4: the migrationV2Done write is the last write of a migration run.
The first conjunct ties the run to its write trace; the second says the
trace, when nonempty, ends with the migrationV2Done put; the third says a
run that aborts after any proper prefix of the trace (a failed read aborts
before the first write, a failed write aborts before the writes after it)
leaves the migrationV2Done setting unchanged, so the migration re-runs on
the next open. -/
theorem migration_flag_last_write (s : Store) (now : Int)
    (hnd : (s.transactions.map Txn.id).Nodup) :
    runMigrationIfNeeded s now = applyWrites s now (migrationWrites s) ∧
    (migrationWrites s ≠ [] →
      (migrationWrites s).getLast? =
        some (WriteOp.putSettingOp "migrationV2Done" (Value.vBool true))) ∧
    (∀ k, k < (migrationWrites s).length →
      getSettingInternal (applyWrites s now ((migrationWrites s).take k))
          "migrationV2Done" = getSettingInternal s "migrationV2Done") := by
  refine ⟨migration_eq_applyWrites s now hnd, migrationWrites_getLast s, ?_⟩
  intro k hk
  exact applyWrites_preserves_flag s now _ (fun op hop =>
    migrationWrites_dropLast_no_flag s op
      (mem_take_of_lt_length _ k hk op hop))

/-- Witness for C4 on the concrete legacy store: the run equals its write
trace, the trace ends with the migrationV2Done put, and after the first
three writes the flag is still unset. -/
theorem migration_flag_last_write_witness :
    (legacyStore.transactions.map Txn.id).Nodup ∧
    migrationWrites legacyStore ≠ [] ∧
    (3 < (migrationWrites legacyStore).length) ∧
    runMigrationIfNeeded legacyStore 777 =
      applyWrites legacyStore 777 (migrationWrites legacyStore) ∧
    (migrationWrites legacyStore).getLast? =
      some (WriteOp.putSettingOp "migrationV2Done" (Value.vBool true)) ∧
    getSettingInternal
        (applyWrites legacyStore 777 ((migrationWrites legacyStore).take 3))
        "migrationV2Done" =
      getSettingInternal legacyStore "migrationV2Done" := by
  have h := migration_flag_last_write legacyStore 777 (by decide)
  exact ⟨by decide, by decide, by decide, h.1, h.2.1 (by decide),
    h.2.2 3 (by decide)⟩

/-! ### Referential integrity of transaction budgetIds -/

/-- Every transaction carries a budgetId that is the id of an existing
budget. -/
def txnRefsValid (s : Store) : Bool :=
  s.transactions.all (fun t => s.budgets.any (fun b => t.budgetId == some b.id))

/-- A store as left by a crash mid-migration: the default budget was
created but the transactions were not yet backfilled and the completion
flag was not yet written. -/
def crashedStore : Store :=
  { transactions := [⟨1, 50, "food", "", none, 100⟩],
    budgets := [⟨1, "Personal Budget", Value.vNum 1000, 0⟩],
    settings := [],
    nextTxnId := 2,
    nextBudgetId := 2 }

/-- Counterexample to C3 as stated: on the partially-migrated store (a
default budget exists, the single transaction still lacks a budgetId, the
flag is unset) the migration run completes with migrationV2Done true, yet
the transaction references no existing budget — the run took the
budgets-already-exist path and never backfilled. -/
theorem migration_refs_counterexample :
    truthy (getSettingInternal (runMigrationIfNeeded crashedStore 5)
      "migrationV2Done") = true ∧
    txnRefsValid (runMigrationIfNeeded crashedStore 5) = false := by decide

/-- C3 amended: excluding the partially-migrated crash state (budgets
already present while some transaction still lacks a budgetId and the flag
is unset), a completed run leaves every transaction referencing an
existing budget.  The hypotheses h0 and h1 say the starting state is
reachable: when the flag is already truthy the integrity already holds,
and a present (truthy) budgetId always references an existing budget. -/
theorem migration_refs_valid_amended (s : Store) (now : Int)
    (h0 : truthy (getSettingInternal s "migrationV2Done") = true →
      txnRefsValid s = true)
    (h1 : ∀ t ∈ s.transactions, budgetIdMissing t.budgetId = false →
      ∃ b ∈ s.budgets, t.budgetId = some b.id)
    (h2 : truthy (getSettingInternal s "migrationV2Done") = false →
      s.budgets ≠ [] →
      ∀ t ∈ s.transactions, budgetIdMissing t.budgetId = false) :
    truthy (getSettingInternal (runMigrationIfNeeded s now)
      "migrationV2Done") = true ∧
    txnRefsValid (runMigrationIfNeeded s now) = true := by
  refine ⟨migration_sets_flag s now, ?_⟩
  by_cases hflag : truthy (getSettingInternal s "migrationV2Done") = true
  · rw [migration_noop_of_done s now hflag]
    exact h0 hflag
  · have hflag2 : truthy (getSettingInternal s "migrationV2Done") = false :=
      by simpa using hflag
    rw [runMigrationIfNeeded]
    simp only [hflag2, Bool.false_eq_true, if_false]
    by_cases hb : (getAllBudgetsInternal s).length > 0
    · have hbne : s.budgets ≠ [] := by
        intro h
        simp [getAllBudgetsInternal, h] at hb
      simp only [hb, if_true]
      rw [txnRefsValid]
      simp only [setSetting_transactions, setSetting_budgets]
      rw [List.all_eq_true]
      intro t ht
      obtain ⟨b, hbmem, hbid⟩ := h1 t ht (h2 hflag2 hbne t ht)
      rw [List.any_eq_true]
      exact ⟨b, hbmem, by simp [hbid]⟩
    · have hlen0 : s.budgets.length = 0 := by
        simp only [getAllBudgetsInternal, gt_iff_lt, not_lt,
          Nat.le_zero] at hb
        exact hb
      have hbe : s.budgets = [] := List.length_eq_zero.mp hlen0
      simp only [hb, if_false]
      rw [txnRefsValid]
      simp only [setSetting_transactions, setSetting_budgets,
        migrateTransactionsToBudget, createBudgetInternal, hbe,
        List.nil_append]
      rw [List.all_eq_true]
      intro t ht
      simp only [List.any_cons, List.any_nil, Bool.or_false]
      simp only [List.mem_map] at ht
      obtain ⟨u, hu, hut⟩ := ht
      by_cases hm : budgetIdMissing u.budgetId = true
      · rw [← hut]
        simp [hm]
      · exfalso
        obtain ⟨b, hbmem, _⟩ := h1 u hu (by simpa using hm)
        rw [hbe] at hbmem
        simp at hbmem

/-- Witness for the amended C3: a legacy store with no budgets satisfies
the reachability hypotheses; after the run its three transactions all
reference the created budget. -/
theorem migration_refs_valid_amended_witness :
    truthy (getSettingInternal (runMigrationIfNeeded legacyStore 777)
      "migrationV2Done") = true ∧
    txnRefsValid (runMigrationIfNeeded legacyStore 777) = true :=
  migration_refs_valid_amended legacyStore 777 (by decide) (by decide)
    (by decide)

/-! ### The initDB open sequence

`initDB` runs its Promise executor synchronously: it checks the module
variable `dbInstance` and, when that is null, immediately calls
`indexedDB.open`; only the `onsuccess` callback (which stores the handle
in `dbInstance` and resolves the caller) runs later.  The model makes the
synchronous body one atomic `invoke` event and delivers `onsuccess`
callbacks in request order as `complete` events.  A handle is identified
by the index of the `indexedDB.open` call that produced it. -/

/-- An event of the initDB model: a caller invokes `initDB`, or the oldest
in-flight open request fires its `onsuccess`. -/
inductive InitEvent where
  | invoke : InitEvent
  | complete : InitEvent
deriving DecidableEq, Repr

/-- State of the initDB machinery: the memoized `dbInstance`, how many
`indexedDB.open` calls were made, the in-flight requests (oldest first),
and the handles resolved to callers so far, in resolution order. -/
structure InitState where
  dbInstance : Option Nat
  opensStarted : Nat
  pending : List Nat
  results : List Nat
deriving DecidableEq, Repr

/-- One event of the initDB model.  `invoke` is the synchronous body of
`initDB` (resolve with the memoized handle, or else call
`indexedDB.open`); `complete` is the oldest pending `onsuccess` (set
`dbInstance` to the handle of that request and resolve its caller). -/
def initStep (st : InitState) : InitEvent → InitState
  | .invoke =>
      match st.dbInstance with
      | some h => { st with results := st.results ++ [h] }
      | none =>
          { st with
            opensStarted := st.opensStarted + 1,
            pending := st.pending ++ [st.opensStarted] }
  | .complete =>
      match st.pending with
      | [] => st
      | r :: rest =>
          { st with
            dbInstance := some r,
            pending := rest,
            results := st.results ++ [r] }

/-- Run a schedule of events from a state. -/
def runInit (st : InitState) (events : List InitEvent) : InitState :=
  events.foldl initStep st

/-- The fresh module state: `dbInstance = null`, no opens yet. -/
def initStart : InitState := ⟨none, 0, [], []⟩

/-- Counterexample to C5 as stated: two `initDB` calls issued before the
first completes both see `dbInstance` null, so two underlying connections
are opened and the two callers resolve with different handles. -/
theorem initDB_single_open_counterexample :
    (runInit initStart
      [.invoke, .invoke, .complete, .complete]).opensStarted = 2 ∧
    (runInit initStart
      [.invoke, .invoke, .complete, .complete]).results = [0, 1] := by
  decide

/-- C5 amended: memoization only guards calls made after a success — once
some `initDB` call has completed and memoized a handle, a further call
opens no new connection and resolves with that same handle (so any number
of subsequent calls reuse the single stored connection); calls that
overlap the first in-flight open are not guarded and may each open a
connection. -/
theorem initDB_memoized_after_success (st : InitState) (h : Nat)
    (hmem : st.dbInstance = some h) :
    (initStep st .invoke).opensStarted = st.opensStarted ∧
    (initStep st .invoke).results = st.results ++ [h] ∧
    (initStep st .invoke).dbInstance = some h := by
  simp [initStep, hmem]

/-- Witness for the amended C5: after `invoke, complete` from the fresh
state the handle is memoized, and a further `invoke` opens nothing and
returns the same handle. -/
theorem initDB_memoized_after_success_witness :
    (initStep (runInit initStart [.invoke, .complete]) .invoke).opensStarted
        = (runInit initStart [.invoke, .complete]).opensStarted ∧
    (initStep (runInit initStart [.invoke, .complete]) .invoke).results
        = (runInit initStart [.invoke, .complete]).results ++ [0] ∧
    (initStep (runInit initStart [.invoke, .complete]) .invoke).dbInstance
        = some 0 :=
  initDB_memoized_after_success (runInit initStart [.invoke, .complete]) 0
    (by decide)

/-! ### Update and delete addressed to a missing record -/

/-- `store.get(id)` on the `transactions` store, as used by
`updateTransactionNote`. -/
def findTxn (s : Store) (id : Nat) : Option Txn :=
  s.transactions.find? (fun t => t.id == id)

/-- `store.get(id)` on the `budgets` store, as used by `updateBudget`. -/
def findBudget (s : Store) (id : Nat) : Option Budget :=
  s.budgets.find? (fun b => b.id == id)

/-- `updateTransactionNote(id, note)`: read the record, set its note and
put it back; reject with a not-found error when no record has this id. -/
def updateTransactionNote (s : Store) (id : Nat) (note : String) :
    Except String Store :=
  match findTxn s id with
  | some _ => .ok { s with transactions := s.transactions.map (fun t =>
      if t.id = id then { t with note := note } else t) }
  | none => .error "Transaction not found"

/-- The `updates` argument of `updateBudget`: a field is updated exactly
when it is not undefined. -/
structure BudgetUpdates where
  newName : Option String
  newTarget : Option Value
deriving DecidableEq, Repr

/-- `updateBudget(id, updates)`: read the record, overwrite the defined
fields and put it back; reject with a not-found error when no record has
this id. -/
def updateBudget (s : Store) (id : Nat) (u : BudgetUpdates) :
    Except String Store :=
  match findBudget s id with
  | some _ => .ok { s with budgets := s.budgets.map (fun b =>
      if b.id = id then
        { b with name := u.newName.getD b.name,
                 target := u.newTarget.getD b.target }
      else b) }
  | none => .error "Budget not found"

/-- `deleteTransaction(id)`: `store.delete(id)` with no existence check;
an IndexedDB delete request fires `onsuccess` whether or not a record with
that key existed, so the call always resolves. -/
def deleteTransaction (s : Store) (id : Nat) : Except String Store :=
  .ok { s with transactions := s.transactions.filter (fun t => !(t.id == id)) }

/-- Whether an operation resolved rather than rejected. -/
def resolvedOk : Except String Store → Bool
  | .ok _ => true
  | .error _ => false

/-- The empty store: no record has id 5. -/
def emptyStore : Store :=
  { transactions := [], budgets := [], settings := [],
    nextTxnId := 1, nextBudgetId := 1 }

/-- Counterexample to C6 as stated: `deleteTransaction` addressed to an id
with no existing record resolves successfully (the claim says it rejects
with a not-found error, never resolving). -/
theorem deleteTransaction_missing_counterexample :
    findTxn emptyStore 5 = none ∧
    resolvedOk (deleteTransaction emptyStore 5) = true := by decide

/-- C6 amended: for an id with no existing record,
`updateTransactionNote` and `updateBudget` reject with a not-found error,
while `deleteTransaction` resolves successfully as a no-op (IndexedDB
delete requests succeed regardless of whether the key existed). -/
theorem missing_id_behavior (s : Store) (id : Nat) (note : String)
    (u : BudgetUpdates) (htx : findTxn s id = none)
    (hb : findBudget s id = none) :
    updateTransactionNote s id note = .error "Transaction not found" ∧
    updateBudget s id u = .error "Budget not found" ∧
    resolvedOk (deleteTransaction s id) = true := by
  refine ⟨?_, ?_, rfl⟩
  · rw [updateTransactionNote, htx]
  · rw [updateBudget, hb]

/-- Witness for the amended C6 at the empty store, id 5. -/
theorem missing_id_behavior_witness :
    updateTransactionNote emptyStore 5 "x" = .error "Transaction not found" ∧
    updateBudget emptyStore 5 ⟨none, none⟩ = .error "Budget not found" ∧
    resolvedOk (deleteTransaction emptyStore 5) = true :=
  missing_id_behavior emptyStore 5 "x" ⟨none, none⟩ (by decide) (by decide)

/-! ### The JS Date model and the month query

`new Date(year, month, day, h, m, s, ms).getTime()` is modelled over the
proleptic Gregorian calendar with the month argument normalized into the
year exactly as the constructor does (month 12 is January of the next
year, month -1 is December of the previous year) and the day argument
taken as an offset from day 1 (so day 0 is the last day of the previous
month).  The model runs at UTC offset zero and skips the constructor
quirk for two-digit years — both apply equally to every Date the code
builds, so the bounds comparisons are unaffected. -/

/-- Days from the Unix epoch to the given civil date (year, month 1-12,
day 1-based), proleptic Gregorian.  All divisions act on nonnegative
operands. -/
def daysFromCivil (y m d : Int) : Int :=
  let yAdj := if m ≤ 2 then y - 1 else y
  let era := Int.ediv yAdj 400
  let yoe := yAdj - era * 400
  let mp := Int.emod (m + 9) 12
  let doy := Int.ediv (153 * mp + 2) 5 + d - 1
  let doe := yoe * 365 + Int.ediv yoe 4 - Int.ediv yoe 100 + doy
  era * 146097 + doe - 719468

/-- `new Date(year, month, day, hour, minute, second, ms).getTime()` with
a 0-based month argument of any size. -/
def jsDateMillis (year month day hour minute second ms : Int) : Int :=
  (daysFromCivil (year + Int.ediv month 12) (Int.emod month 12 + 1) 1
      + (day - 1)) * 86400000 +
    hour * 3600000 + minute * 60000 + second * 1000 + ms

/-- `getTransactionsByMonth(year, month, budgetId)`: cursor over the
timestamp index bounded by `new Date(year, month, 1)` and
`new Date(year, month + 1, 0, 23, 59, 59, 999)` (both inclusive), keeping
the records whose budgetId strictly equals the argument. -/
def getTransactionsByMonth (s : Store) (year month : Int) (budgetId : Nat) :
    List Txn :=
  s.transactions.filter (fun t =>
    decide (jsDateMillis year month 1 0 0 0 0 ≤ t.timestamp) &&
    decide (t.timestamp ≤ jsDateMillis year (month + 1) 0 23 59 59 999) &&
    (t.budgetId == some budgetId))

/-- First instant of the given month — day 1 at 00:00:00.000, following
the words of the spec. -/
def monthFirstInstant (year month : Int) : Int :=
  jsDateMillis year month 1 0 0 0 0

/-- Last instant of the given month — its last day at 23:59:59.999, which
is one millisecond before the first instant of the next month, following
the words of the spec. -/
def monthLastInstant (year month : Int) : Int :=
  monthFirstInstant year (month + 1) - 1

theorem endOfMonth_eq_monthLastInstant (year month : Int) :
    jsDateMillis year (month + 1) 0 23 59 59 999 =
      monthLastInstant year month := by
  rw [monthLastInstant, monthFirstInstant, jsDateMillis, jsDateMillis]
  ring

/-- C7: `byMonth(year, month, budgetId)` returns exactly the transactions
whose budgetId equals the argument and whose timestamp lies in the
inclusive range from the first instant of the month (day 1, 00:00:00.000)
to its last instant (last day, 23:59:59.999); no ordering is asserted. -/
theorem byMonth_characterization (s : Store) (year month : Int)
    (budgetId : Nat) (t : Txn) :
    t ∈ getTransactionsByMonth s year month budgetId ↔
      (t ∈ s.transactions ∧ t.budgetId = some budgetId ∧
       monthFirstInstant year month ≤ t.timestamp ∧
       t.timestamp ≤ monthLastInstant year month) := by
  rw [getTransactionsByMonth, List.mem_filter,
    endOfMonth_eq_monthLastInstant]
  simp only [Bool.and_eq_true, decide_eq_true_eq, beq_iff_eq,
    monthFirstInstant]
  tauto

/-! ### Date-range query and range delete -/

/-- `getTransactionsByDateRange(startDate, endDate, budgetId)`: cursor
over the timestamp index bounded inclusively by the two instants, keeping
the records whose budgetId equals the argument.  The Date arguments are
modelled by their `getTime()` values. -/
def getTransactionsByDateRange (s : Store) (startMs endMs : Int)
    (budgetId : Nat) : List Txn :=
  s.transactions.filter (fun t =>
    decide (startMs ≤ t.timestamp) && decide (t.timestamp ≤ endMs) &&
    (t.budgetId == some budgetId))

/-- `deleteTransactionsByDateRange(startDate, endDate, budgetId)`: same
scan, deleting each matching record at the cursor and counting it;
resolves with the count. -/
def deleteTransactionsByDateRange (s : Store) (startMs endMs : Int)
    (budgetId : Nat) : Nat × Store :=
  ((s.transactions.filter (fun t =>
      decide (startMs ≤ t.timestamp) && decide (t.timestamp ≤ endMs) &&
      (t.budgetId == some budgetId))).length,
   { s with transactions := s.transactions.filter (fun t =>
      !(decide (startMs ≤ t.timestamp) && decide (t.timestamp ≤ endMs) &&
        (t.budgetId == some budgetId))) })

/-- C8: deleting a date range then querying the same range and budget
returns the empty list, and the returned count equals the number of
records that matched the range and budget before the deletion. -/
theorem deleteByDateRange_then_query (s : Store) (startMs endMs : Int)
    (budgetId : Nat) :
    getTransactionsByDateRange
        (deleteTransactionsByDateRange s startMs endMs budgetId).2
        startMs endMs budgetId = [] ∧
    (deleteTransactionsByDateRange s startMs endMs budgetId).1 =
      (getTransactionsByDateRange s startMs endMs budgetId).length := by
  refine ⟨?_, rfl⟩
  rw [getTransactionsByDateRange, List.filter_eq_nil_iff]
  intro t ht
  have hmem := List.mem_filter.mp ht
  intro habs
  rw [habs] at hmem
  simp at hmem

/-! ### Adding a transaction -/

/-- The caller-supplied argument of `addTransaction`; `note` is optional
(undefined is `none`). -/
structure TxnInput where
  amount : Int
  category : String
  note : Option String
  budgetId : Nat
deriving DecidableEq, Repr

/-- `addTransaction(transaction)`: build the record `{amount, category,
note: transaction.note || '', budgetId, timestamp: Date.now()}`, add it (the
store assigns the next auto-increment key as its id) and resolve with that
key. -/
def addTransaction (s : Store) (input : TxnInput) (now : Int) : Nat × Store :=
  let record : Txn :=
    { id := s.nextTxnId,
      amount := input.amount,
      category := input.category,
      note := match input.note with
              | some n => if n = "" then "" else n
              | none => "",
      budgetId := some input.budgetId,
      timestamp := now }
  (s.nextTxnId,
   { s with transactions := s.transactions ++ [record],
            nextTxnId := s.nextTxnId + 1 })

/-- C9: adding a transaction and reading the record back by the returned
id yields exactly the input fields plus a fresh id (distinct from every
existing id) and a timestamp equal to the creation instant — the record
has no other fields.  The hypothesis is the auto-increment property of
the store: every existing key is below the key generator. -/
theorem addTransaction_then_get (s : Store) (input : TxnInput) (now : Int)
    (hfresh : ∀ t ∈ s.transactions, t.id < s.nextTxnId) :
    (∀ t ∈ s.transactions, t.id ≠ (addTransaction s input now).1) ∧
    findTxn (addTransaction s input now).2 (addTransaction s input now).1 =
      some { id := (addTransaction s input now).1,
             amount := input.amount,
             category := input.category,
             note := (match input.note with
                      | some n => if n = "" then "" else n
                      | none => ""),
             budgetId := some input.budgetId,
             timestamp := now } := by
  refine ⟨fun t ht => Nat.ne_of_lt (hfresh t ht), ?_⟩
  rw [findTxn, addTransaction]
  simp only [List.find?_append]
  have hnone : s.transactions.find? (fun t => t.id == s.nextTxnId) = none := by
    rw [List.find?_eq_none]
    intro t ht
    simp only [beq_iff_eq]
    exact Nat.ne_of_lt (hfresh t ht)
  rw [hnone]
  simp [List.find?]

/-- Witness for C9 at a store holding one prior transaction. -/
theorem addTransaction_then_get_witness :
    (∀ t ∈ migratedStore.transactions,
      t.id ≠ (addTransaction migratedStore ⟨25, "food", none, 1⟩ 900).1) ∧
    findTxn (addTransaction migratedStore ⟨25, "food", none, 1⟩ 900).2
        (addTransaction migratedStore ⟨25, "food", none, 1⟩ 900).1 =
      some ⟨2, 25, "food", "", some 1, 900⟩ := by
  have h := addTransaction_then_get migratedStore ⟨25, "food", none, 1⟩ 900
    (by decide)
  exact ⟨h.1, h.2⟩

/-! ### Reading a setting -/

theorem lookupSetting_eq_of_mem (l : List (String × Value)) (key : String)
    (v : Value) (hnd : (l.map Prod.fst).Nodup) (hv : (key, v) ∈ l) :
    lookupSetting l key = some v := by
  induction l with
  | nil => simp at hv
  | cons p rest ih =>
      obtain ⟨k0, w⟩ := p
      rw [List.map_cons, List.nodup_cons] at hnd
      rcases List.mem_cons.mp hv with h1 | h2
      · obtain ⟨h3, h4⟩ := Prod.mk.injEq .. ▸ h1
        rw [← h3, ← h4] at *
        simp [lookupSetting]
      · have hk0 : k0 ≠ key := by
          intro h
          refine hnd.1 ?_
          rw [h]
          exact List.mem_map.mpr ⟨(key, v), h2, rfl⟩
        simp only [lookupSetting, hk0, if_false]
        exact ih hnd.2 h2

/-- C10: `getSetting(key)` resolves with `getSettingInternal`: the stored
value when a record with that key exists — with no truthiness test, so
stored falsy values (false, 0, the empty string) come back exactly as
stored — and null (not undefined) when none does.  The source only rejects
when the underlying read request itself fails, which is outside this
model. -/
theorem getSetting_spec (s : Store) (key : String)
    (hnd : (s.settings.map Prod.fst).Nodup) :
    (lookupSetting s.settings key = none →
      getSettingInternal s key = Value.vNull) ∧
    (∀ v : Value, (key, v) ∈ s.settings → getSettingInternal s key = v) := by
  constructor
  · intro h
    rw [getSettingInternal, h]
  · intro v hv
    rw [getSettingInternal, lookupSetting_eq_of_mem s.settings key v hnd hv]

/-- A settings store holding the falsy values false, 0 and the empty
string. -/
def falsySettingsStore : Store :=
  { transactions := [], budgets := [],
    settings := [("a", Value.vBool false), ("b", Value.vNum 0),
                 ("c", Value.vStr "")],
    nextTxnId := 1, nextBudgetId := 1 }

/-- Witness for C10: a missing key reads as null, and stored falsy values
are returned exactly, not replaced by null. -/
theorem getSetting_spec_witness :
    getSettingInternal falsySettingsStore "missing" = Value.vNull ∧
    getSettingInternal falsySettingsStore "a" = Value.vBool false ∧
    getSettingInternal falsySettingsStore "b" = Value.vNum 0 ∧
    getSettingInternal falsySettingsStore "c" = Value.vStr "" := by
  refine ⟨(getSetting_spec falsySettingsStore "missing" (by decide)).1
      (by decide),
    (getSetting_spec falsySettingsStore "a" (by decide)).2 _ (by decide),
    (getSetting_spec falsySettingsStore "b" (by decide)).2 _ (by decide),
    (getSetting_spec falsySettingsStore "c" (by decide)).2 _ (by decide)⟩

end BudgetApp
